import Mathlib

/-!
Verification of the client-side product filter engine, enrichment and
endpoint plumbing of the rakumart-1688 client.

The Python modules `rakumart/filters.py`, `rakumart/utils.py`,
`rakumart/enrich.py`, `rakumart/http.py`, `rakumart/api_search.py` and the
duplicated filter-engine variant in `main.py` are shallowly embedded below.
Products are loosely-typed records (string-keyed maps of dynamic values),
numbers are modelled as rationals, and Python exceptions are modelled with
`Except`: an uncaught exception is an `Except.error`, a `try/except` block
is an explicit catch combinator.
-/

namespace Rakumart

/-- A dynamic (Python) value as it occurs in product records: `None`,
booleans, strings, numbers (floats and ints, modelled as rationals),
dictionaries (association lists, first binding wins) and lists. -/
inductive Value : Type where
  | vnone : Value
  | vbool : Bool → Value
  | vstr : String → Value
  | vnum : ℚ → Value
  | vdict : List (String × Value) → Value
  | vlist : List Value → Value

/-- `v is None` (Python identity test against the `None` object). -/
def isVNone : Value → Bool
  | .vnone => true
  | _ => false

/-- A product record: a Python dict with string keys. -/
abbrev Product := List (String × Value)

/-- The Python exceptions that the embedded code can raise. -/
inductive PyErr : Type where
  | attrError : PyErr
  | valueError : PyErr
  | typeError : PyErr
  deriving DecidableEq

/-- Python truthiness of a value. -/
def truthy : Value → Bool
  | .vnone => false
  | .vbool b => b
  | .vstr s => decide (s ≠ "")
  | .vnum q => decide (q ≠ 0)
  | .vdict [] => false
  | .vdict (_ :: _) => true
  | .vlist [] => false
  | .vlist (_ :: _) => true

/-- First binding of a key in a dict, if any. -/
def dictGet : List (String × Value) → String → Option Value
  | [], _ => none
  | (k, v) :: rest, key => if k = key then some v else dictGet rest key

/-- Python `d.get(k)` (default `None`). -/
def pyGet (p : Product) (k : String) : Value :=
  (dictGet p k).getD .vnone

/-- Python `d.get(k, default)`. -/
def pyGetD (p : Product) (k : String) (dflt : Value) : Value :=
  (dictGet p k).getD dflt

/-- Python `a or b` on values (value-returning, truthiness based). -/
def pyOr (a b : Value) : Value :=
  if truthy a then a else b

/-- Python `v.get(k)` where `v` need not be a dict: a non-dict receiver
raises `AttributeError`. -/
def vget : Value → String → Except PyErr Value
  | .vdict d, k => .ok (pyGet d k)
  | _, _ => .error .attrError

/-- Python `a or b` where the operands may raise. -/
def orM (a b : Except PyErr Value) : Except PyErr Value := do
  let va ← a
  if truthy va then pure va else b

/-- Digits of a numeric literal, most significant first. -/
def parseDigits (cs : List Char) : ℕ :=
  cs.foldl (fun n c => 10 * n + (c.toNat - 48)) 0

/-- Python `float(s)` on an unsigned literal: digits with at most one dot
and at least one digit, nothing else.  (Exponents, `inf`/`nan`, underscores
and surrounding whitespace are not produced by the cleaned strings this
code feeds to `float`, so they are not modelled.) -/
def parsePyFloatPos (cs : List Char) : Option ℚ :=
  if cs.all (fun c => c.isDigit || decide (c = '.')) then
    if (cs.filter (fun c => decide (c = '.'))).length ≤ 1 then
      if (cs.filter Char.isDigit).length ≥ 1 then
        let intPart := cs.takeWhile (fun c => decide (c ≠ '.'))
        let fracPart := (cs.dropWhile (fun c => decide (c ≠ '.'))).drop 1
        some ((parseDigits intPart : ℚ) + (parseDigits fracPart : ℚ) / (10 ^ fracPart.length))
      else none
    else none
  else none

/-- Python `float(s)`: optional sign, then an unsigned float literal. -/
def parsePyFloat (s : String) : Option ℚ :=
  match s.toList with
  | [] => parsePyFloatPos []
  | c :: rest =>
      if c = '-' then (parsePyFloatPos rest).map (fun q => -q)
      else if c = '+' then parsePyFloatPos rest
      else parsePyFloatPos (c :: rest)

/-- Python `int(s)` on an unsigned literal: digits only. -/
def parsePyIntPos (cs : List Char) : Option ℤ :=
  if cs.length ≥ 1 ∧ cs.all Char.isDigit then some (parseDigits cs : ℤ) else none

/-- Python `int(s)`: optional sign, then digits. -/
def parsePyInt (s : String) : Option ℤ :=
  match s.toList with
  | [] => parsePyIntPos []
  | c :: rest =>
      if c = '-' then (parsePyIntPos rest).map (fun n => -n)
      else if c = '+' then parsePyIntPos rest
      else parsePyIntPos (c :: rest)

/-- Truncation toward zero, as Python `int(float)`. -/
def pyTrunc (q : ℚ) : ℤ :=
  Int.tdiv q.num (q.den : ℤ)

/-- Python `float(v)`: numbers and booleans convert, strings are parsed
(`ValueError` on failure), everything else raises `TypeError`. -/
def pyFloat : Value → Except PyErr ℚ
  | .vnum q => .ok q
  | .vbool b => .ok (if b then 1 else 0)
  | .vstr s =>
      match parsePyFloat s with
      | some q => .ok q
      | none => .error .valueError
  | _ => .error .typeError

/-- Python `int(v)`. -/
def pyInt : Value → Except PyErr ℤ
  | .vnum q => .ok (pyTrunc q)
  | .vbool b => .ok (if b then 1 else 0)
  | .vstr s =>
      match parsePyInt s with
      | some n => .ok n
      | none => .error .valueError
  | _ => .error .typeError

/-- A `try: ... except (TypeError, ValueError): fallback` block.
`AttributeError` is not caught anywhere in the filter code. -/
def pyTry {α : Type} (body : Except PyErr α) (fallback : α) : Except PyErr α :=
  match body with
  | .ok a => .ok a
  | .error .valueError => .ok fallback
  | .error .typeError => .ok fallback
  | .error e => .error e

/-- Truthiness of an optional float argument (`None` and `0.0` falsy). -/
def optQTruthy : Option ℚ → Bool
  | none => false
  | some q => decide (q ≠ 0)

/-- Truthiness of an optional list argument (`None` and `[]` falsy). -/
def optListTruthy : Option (List String) → Bool
  | none => false
  | some [] => false
  | some (_ :: _) => true

/-- The `for product in products: ... filtered.append(product)` loop of
every filter: each item is kept or dropped by a per-item decision that may
raise, and a raise aborts the whole call. -/
def exceptFilterM (f : Product → Except PyErr Bool) : List Product → Except PyErr (List Product)
  | [] => .ok []
  | p :: ps => do
      let keep ← f p
      let rest ← exceptFilterM f ps
      pure (if keep then p :: rest else rest)

/-! ### `rakumart/filters.py`: the package filter engine -/

/-- `filters.py` line 12: the dimensions record lookup chain. -/
def dimsOf (p : Product) : Value :=
  pyOr (pyGetD p "dimensions" (.vdict []))
    (pyOr (pyGetD p "size" (.vdict [])) (pyGetD p "specs" (.vdict [])))

/-- `dims.get(k1) or dims.get(k2) or dims.get(k3)` (may raise on a
non-dict receiver). -/
def dimLookup (dims : Value) (k1 k2 k3 : String) : Except PyErr Value :=
  orM (vget dims k1) (orM (vget dims k2) (vget dims k3))

/-- One clause `max_d is not None and d is not None and float(d) > max_d`
of the size filter; the `float` call is NOT inside a try block. -/
def dimViolates (maxd : Option ℚ) (v : Value) : Except PyErr Bool :=
  match maxd with
  | none => .ok false
  | some m =>
      if isVNone v then .ok false
      else do
        let q ← pyFloat v
        pure (decide (m < q))

/-- Per-item body of `filter_products_by_size` (`filters.py` lines 11-26). -/
def sizeStep (maxL maxW maxH : Option ℚ) (strict : Bool) (p : Product) :
    Except PyErr Bool := do
  let dims := dimsOf p
  let lv ← dimLookup dims "length" "l" "长"
  let wv ← dimLookup dims "width" "w" "宽"
  let hv ← dimLookup dims "height" "h" "高"
  if strict && ((isVNone lv && maxL.isSome) || (isVNone wv && maxW.isSome) ||
      (isVNone hv && maxH.isSome)) then
    pure false
  else do
    let c1 ← dimViolates maxL lv
    if c1 then pure false
    else do
      let c2 ← dimViolates maxW wv
      if c2 then pure false
      else do
        let c3 ← dimViolates maxH hv
        pure (!c3)

/-- `filter_products_by_size` (`filters.py` lines 5-27). -/
def filter_products_by_size (products : List Product) (maxL maxW maxH : Option ℚ)
    (strict : Bool) : Except PyErr (List Product) :=
  if optQTruthy maxL || optQTruthy maxW || optQTruthy maxH then
    exceptFilterM (sizeStep maxL maxW maxH strict) products
  else .ok products

/-- Inventory field lookup chain (`filters.py` line 36). -/
def invLookup (p : Product) : Value :=
  pyOr (pyGet p "inventory") (pyOr (pyGet p "stock") (pyGet p "quantity"))

/-- Per-item body of `filter_products_by_inventory`. -/
def invStep (minInv : ℤ) (strict : Bool) (p : Product) : Except PyErr Bool :=
  let inv := invLookup p
  if isVNone inv then .ok (!strict)
  else pyTry ((pyInt inv).map (fun n => decide (minInv ≤ n))) (!strict)

/-- `filter_products_by_inventory` (`filters.py` lines 30-47); the guard
`if not min_inventory` makes a zero minimum a pass-through. -/
def filter_products_by_inventory (products : List Product) (minInv : ℤ)
    (strict : Bool) : Except PyErr (List Product) :=
  if minInv = 0 then .ok products
  else exceptFilterM (invStep minInv strict) products

/-- Delivery field lookup chain (`filters.py` line 56). -/
def delLookup (p : Product) : Value :=
  pyOr (pyGet p "delivery_days") (pyOr (pyGet p "shipping_days") (pyGet p "delivery_time"))

/-- Per-item body of `filter_products_by_delivery`. -/
def delStep (maxDel : ℤ) (strict : Bool) (p : Product) : Except PyErr Bool :=
  let d := delLookup p
  if isVNone d then .ok (!strict)
  else pyTry ((pyInt d).map (fun n => decide (n ≤ maxDel))) (!strict)

/-- `filter_products_by_delivery` (`filters.py` lines 50-67). -/
def filter_products_by_delivery (products : List Product) (maxDel : ℤ)
    (strict : Bool) : Except PyErr (List Product) :=
  if maxDel = 0 then .ok products
  else exceptFilterM (delStep maxDel strict) products

/-- Shipping-fee field lookup chain (`filters.py` line 76). -/
def shipLookup (p : Product) : Value :=
  pyOr (pyGet p "shipping_fee") (pyOr (pyGet p "shipping_cost") (pyGet p "delivery_fee"))

/-- Per-item body of `filter_products_by_shipping_fee`. -/
def shipStep (maxFee : ℚ) (strict : Bool) (p : Product) : Except PyErr Bool :=
  let f := shipLookup p
  if isVNone f then .ok (!strict)
  else pyTry ((pyFloat f).map (fun q => decide (q ≤ maxFee))) (!strict)

/-- `filter_products_by_shipping_fee` (`filters.py` lines 70-87); the guard
`if not max_shipping_fee and max_shipping_fee != 0` is vacuous for a float
argument, so the filter is always active. -/
def filter_products_by_shipping_fee (products : List Product) (maxFee : ℚ)
    (strict : Bool) : Except PyErr (List Product) :=
  if maxFee = 0 ∧ maxFee ≠ 0 then .ok products
  else exceptFilterM (shipStep maxFee strict) products

/-- Weight field lookup chain (`filters.py` lines 96-97). -/
def weightLookup (p : Product) : Value :=
  pyOr (pyGet p "weight")
    (pyOr (pyGet p "product_weight") (pyOr (pyGet p "net_weight") (pyGet p "gross_weight")))

/-- Per-item body of the package `filter_products_by_weight`: a bare
`float(weight) <= float(max_weight)` inside a try block, with no unit
handling of any kind. -/
def weightStep (maxW : ℚ) (strict : Bool) (p : Product) : Except PyErr Bool :=
  let w := weightLookup p
  if isVNone w then .ok (!strict)
  else pyTry ((pyFloat w).map (fun q => decide (q ≤ maxW))) (!strict)

/-- `filter_products_by_weight` (`filters.py` lines 90-108). -/
def filter_products_by_weight (products : List Product) (maxW : ℚ)
    (strict : Bool) : Except PyErr (List Product) :=
  if maxW = 0 ∧ maxW ≠ 0 then .ok products
  else exceptFilterM (weightStep maxW strict) products

/-- `re.sub(r'[^\d.,]', '', s)`: keep digits, dots and commas. -/
def keepPriceChars (s : String) : String :=
  String.mk (s.toList.filter (fun c => c.isDigit || decide (c = '.') || decide (c = ',')))

/-- `s.replace(',', '.')`. -/
def commaToDot (s : String) : String :=
  String.mk (s.toList.map (fun c => if c = ',' then '.' else c))

/-- `convert_rmb_to_jpy` (`utils.py` lines 13-15). -/
def convert_rmb_to_jpy (rmb rate : ℚ) : ℚ := rmb * rate

/-- The body of one iteration of `get_product_price_in_jpy`
(`utils.py` lines 27-42): `none` means the loop continues to the next
field (missing value, empty cleaned string, or a caught coercion error). -/
def priceFromValue : Value → Option ℚ
  | .vnone => none
  | .vstr s =>
      let clean := keepPriceChars s
      if clean = "" then none
      else parsePyFloat (commaToDot clean)
  | v =>
      match pyFloat v with
      | .ok q => some q
      | .error _ => none

/-- First price field that yields a value. -/
def firstPrice (p : Product) : List String → Option ℚ
  | [] => none
  | f :: rest =>
      match priceFromValue (pyGet p f) with
      | some q => some q
      | none => firstPrice p rest

/-- `get_product_price_in_jpy` (`utils.py` lines 23-43). -/
def get_product_price_in_jpy (p : Product) (rate : ℚ) : Option ℚ :=
  (firstPrice p ["goodsPrice", "price", "productPrice", "salePrice", "marketPrice"]).map
    (fun q => convert_rmb_to_jpy q rate)

/-- Per-item decision of `filter_products_by_jpy_price` (total: every
coercion inside the price extraction is wrapped in a try block). -/
def jpyStep (pmin pmax : Option ℚ) (rate : ℚ) (strict : Bool) (p : Product) : Bool :=
  match get_product_price_in_jpy p rate with
  | none => !strict
  | some jp =>
      if optQTruthy pmin ∧ jp < pmin.getD 0 then false
      else if optQTruthy pmax ∧ pmax.getD 0 < jp then false
      else true

/-- `filter_products_by_jpy_price` (`filters.py` lines 111-128). -/
def filter_products_by_jpy_price (products : List Product) (pmin pmax : Option ℚ)
    (rate : ℚ) (strict : Bool) : Except PyErr (List Product) :=
  if optQTruthy pmin || optQTruthy pmax then
    exceptFilterM (fun p => .ok (jpyStep pmin pmax rate strict p)) products
  else .ok products

/-- `filters.py` line 138: `product.get("category") or product.get("categoryInfo") or {}`. -/
def catMetaOf (p : Product) : Value :=
  pyOr (pyGet p "category") (pyOr (pyGet p "categoryInfo") (.vdict []))

/-- Python `v in allow` for a string allow-list. -/
def valueMem (v : Value) (allow : List String) : Bool :=
  match v with
  | .vstr s => allow.contains s
  | _ => false

/-- Category-info lookup chain for one dimension. -/
def catLookup (d : Product) (k1 k2 k3 : String) : Value :=
  pyOr (pyGet d k1) (pyOr (pyGet d k2) (pyGet d k3))

/-- One dimension block of the category filter: with a truthy allow-list
the looked-up value must be truthy and a member; an absent or empty
allow-list imposes nothing. -/
def catDimPasses (d : Product) (k1 k2 k3 : String) (allow : Option (List String)) : Bool :=
  if optListTruthy allow then
    let v := catLookup d k1 k2 k3
    truthy v && valueMem v (allow.getD [])
  else true

/-- Per-item body of `filter_products_by_categories` (`filters.py` lines
137-154): an item with falsy category info is appended unconditionally; a
dict is checked dimension by dimension; a truthy non-dict raises
`AttributeError` at the first active dimension's `.get`. -/
def catStep (cats subs subsubs : Option (List String)) (p : Product) :
    Except PyErr Bool :=
  let ci := catMetaOf p
  if !truthy ci then .ok true
  else
    match ci with
    | .vdict d =>
        .ok (catDimPasses d "category" "mainCategory" "一级类目" cats &&
          catDimPasses d "subcategory" "subCategory" "二级类目" subs &&
          catDimPasses d "subSubcategory" "sub_subcategory" "三级类目" subsubs)
    | _ =>
        if optListTruthy cats || optListTruthy subs || optListTruthy subsubs then
          .error .attrError
        else .ok true

/-- `filter_products_by_categories` (`filters.py` lines 131-155). -/
def filter_products_by_categories (products : List Product)
    (cats subs subsubs : Option (List String)) : Except PyErr (List Product) :=
  if optListTruthy cats || optListTruthy subs || optListTruthy subsubs then
    exceptFilterM (catStep cats subs subsubs) products
  else .ok products

/-- The filter configuration: one optional constraint per filter plus the
conversion rate and the strict flag (`apply_product_filters` parameters). -/
structure FilterConfig : Type where
  categories : Option (List String)
  subcategories : Option (List String)
  sub_subcategories : Option (List String)
  max_length : Option ℚ
  max_width : Option ℚ
  max_height : Option ℚ
  max_weight : Option ℚ
  jpy_price_min : Option ℚ
  jpy_price_max : Option ℚ
  exchange_rate : ℚ
  strict_mode : Bool
  min_inventory : Option ℤ
  max_delivery_days : Option ℤ
  max_shipping_fee : Option ℚ
  deriving DecidableEq

/-- `apply_product_filters` (`filters.py` lines 158-179): categories, then
price, then size unconditionally; inventory, delivery, shipping fee and
weight each only when the corresponding argument is not `None`. -/
def apply_product_filters (cfg : FilterConfig) (products : List Product) :
    Except PyErr (List Product) := do
  let l1 ← filter_products_by_categories products cfg.categories cfg.subcategories
    cfg.sub_subcategories
  let l2 ← filter_products_by_jpy_price l1 cfg.jpy_price_min cfg.jpy_price_max
    cfg.exchange_rate cfg.strict_mode
  let l3 ← filter_products_by_size l2 cfg.max_length cfg.max_width cfg.max_height
    cfg.strict_mode
  let l4 ← match cfg.min_inventory with
    | none => pure l3
    | some m => filter_products_by_inventory l3 m cfg.strict_mode
  let l5 ← match cfg.max_delivery_days with
    | none => pure l4
    | some m => filter_products_by_delivery l4 m cfg.strict_mode
  let l6 ← match cfg.max_shipping_fee with
    | none => pure l5
    | some m => filter_products_by_shipping_fee l5 m cfg.strict_mode
  match cfg.max_weight with
  | none => pure l6
  | some m => filter_products_by_weight l6 m cfg.strict_mode

/-- A configuration in which every constraint is absent. -/
def emptyConfig (rate : ℚ) (strict : Bool) : FilterConfig :=
  ⟨none, none, none, none, none, none, none, none, none, rate, strict, none, none, none⟩

/-- Claim C1: with every constraint absent (no allow-lists, no maxima, no
price bounds, no inventory minimum, either strict flag), the full filter
pipeline returns its input list unchanged and raises nothing. -/
theorem apply_product_filters_noop (products : List Product) (rate : ℚ) (strict : Bool) :
    apply_product_filters (emptyConfig rate strict) products = .ok products := rfl

/-! ### Generic lemmas about the filtering loop -/

/-- Did the call return normally? -/
def exOkB {α : Type} : Except PyErr α → Bool
  | .ok _ => true
  | .error _ => false

theorem pure_eq_ok {α : Type} (a : α) : (pure a : Except PyErr α) = .ok a := rfl

theorem ok_bind {α β : Type} (a : α) (f : α → Except PyErr β) :
    (Except.ok a >>= f) = f a := rfl

theorem bind_ok_eta {α : Type} (x : Except PyErr α) :
    (x >>= fun a => (Except.ok a : Except PyErr α)) = x := by
  cases x <;> rfl

theorem exceptFilterM_eq_filter {f : Product → Except PyErr Bool} {g : Product → Bool}
    (ps : List Product) (h : ∀ p ∈ ps, f p = .ok (g p)) :
    exceptFilterM f ps = .ok (ps.filter g) := by
  induction ps with
  | nil => rfl
  | cons p ps ih =>
      have h1 := h p (by simp)
      have h2 : ∀ q ∈ ps, f q = .ok (g q) := fun q hq => h q (by simp [hq])
      simp only [exceptFilterM, h1, ih h2, List.filter_cons]
      cases hg : g p <;> simp [Bind.bind, Except.bind, hg, pure_eq_ok]

theorem exceptFilterM_ok {f : Product → Except PyErr Bool} (ps : List Product)
    (h : ∀ p ∈ ps, exOkB (f p) = true) : exOkB (exceptFilterM f ps) = true := by
  induction ps with
  | nil => rfl
  | cons p ps ih =>
      have h1 := h p (by simp)
      have h2 := ih (fun q hq => h q (by simp [hq]))
      cases hf : f p with
      | error e => rw [hf] at h1; simp [exOkB] at h1
      | ok b =>
          cases hr : exceptFilterM f ps with
          | error e => rw [hr] at h2; simp [exOkB] at h2
          | ok l => simp [exceptFilterM, hf, hr, Bind.bind, Except.bind, exOkB, pure_eq_ok]

theorem exceptFilterM_cons_keep {f : Product → Except PyErr Bool} {p : Product}
    (ps : List Product) (h : f p = .ok true) :
    exceptFilterM f (p :: ps) = (exceptFilterM f ps).map (fun l => p :: l) := by
  cases hr : exceptFilterM f ps <;>
    simp [exceptFilterM, h, hr, Bind.bind, Except.bind, Except.map, pure_eq_ok]

theorem exceptFilterM_cons_drop {f : Product → Except PyErr Bool} {p : Product}
    (ps : List Product) (h : f p = .ok false) :
    exceptFilterM f (p :: ps) = exceptFilterM f ps := by
  cases hr : exceptFilterM f ps <;>
    simp [exceptFilterM, h, hr, Bind.bind, Except.bind, pure_eq_ok]

/-! ### Identifying each filter as a per-item predicate pass -/

/-- The seven client-side filters. -/
inductive FKind : Type where
  | cat | price | size | inv | del | ship | weight
  deriving DecidableEq

def allKinds : List FKind := [.cat, .price, .size, .inv, .del, .ship, .weight]

/-- One pass of the pipeline: precisely the call `apply_product_filters`
makes for that filter, including the `is not None` guards around the
inventory/delivery/shipping/weight calls. -/
def applyKind (cfg : FilterConfig) (k : FKind) (ps : List Product) :
    Except PyErr (List Product) :=
  match k with
  | .cat => filter_products_by_categories ps cfg.categories cfg.subcategories
      cfg.sub_subcategories
  | .price => filter_products_by_jpy_price ps cfg.jpy_price_min cfg.jpy_price_max
      cfg.exchange_rate cfg.strict_mode
  | .size => filter_products_by_size ps cfg.max_length cfg.max_width cfg.max_height
      cfg.strict_mode
  | .inv => match cfg.min_inventory with
      | none => .ok ps
      | some m => filter_products_by_inventory ps m cfg.strict_mode
  | .del => match cfg.max_delivery_days with
      | none => .ok ps
      | some m => filter_products_by_delivery ps m cfg.strict_mode
  | .ship => match cfg.max_shipping_fee with
      | none => .ok ps
      | some m => filter_products_by_shipping_fee ps m cfg.strict_mode
  | .weight => match cfg.max_weight with
      | none => .ok ps
      | some m => filter_products_by_weight ps m cfg.strict_mode

/-- The fixed order used by `apply_product_filters`. -/
def codeFilterOrder : List FKind := [.cat, .price, .size, .inv, .del, .ship, .weight]

/-- The pipeline run in an arbitrary order of passes. -/
def runPipeline (cfg : FilterConfig) (ks : List FKind) (ps : List Product) :
    Except PyErr (List Product) :=
  match ks with
  | [] => .ok ps
  | k :: rest => do
      let ps2 ← applyKind cfg k ps
      runPipeline cfg rest ps2

theorem apply_product_filters_eq_runPipeline (cfg : FilterConfig) (ps : List Product) :
    apply_product_filters cfg ps = runPipeline cfg codeFilterOrder ps := by
  rcases cfg with ⟨c1, c2, c3, mL, mW, mH, mWt, pmn, pmx, rate, strict, mInv, mDel, mShip⟩
  cases mInv <;> cases mDel <;> cases mShip <;> cases mWt <;>
    simp [apply_product_filters, runPipeline, codeFilterOrder, applyKind,
      ok_bind, bind_ok_eta, pure_eq_ok]

/-- The per-item decision a pass uses when it is active. -/
def stepOf (cfg : FilterConfig) (k : FKind) : Product → Except PyErr Bool :=
  match k with
  | .cat => catStep cfg.categories cfg.subcategories cfg.sub_subcategories
  | .price => fun p => .ok (jpyStep cfg.jpy_price_min cfg.jpy_price_max cfg.exchange_rate
      cfg.strict_mode p)
  | .size => sizeStep cfg.max_length cfg.max_width cfg.max_height cfg.strict_mode
  | .inv => match cfg.min_inventory with
      | none => fun _ => .ok true
      | some m => invStep m cfg.strict_mode
  | .del => match cfg.max_delivery_days with
      | none => fun _ => .ok true
      | some m => delStep m cfg.strict_mode
  | .ship => match cfg.max_shipping_fee with
      | none => fun _ => .ok true
      | some m => shipStep m cfg.strict_mode
  | .weight => match cfg.max_weight with
      | none => fun _ => .ok true
      | some m => weightStep m cfg.strict_mode

/-- Is a pass active (not a structural pass-through) for this config? -/
def kindActive (cfg : FilterConfig) (k : FKind) : Bool :=
  match k with
  | .cat => optListTruthy cfg.categories || optListTruthy cfg.subcategories ||
      optListTruthy cfg.sub_subcategories
  | .price => optQTruthy cfg.jpy_price_min || optQTruthy cfg.jpy_price_max
  | .size => optQTruthy cfg.max_length || optQTruthy cfg.max_width ||
      optQTruthy cfg.max_height
  | .inv => match cfg.min_inventory with
      | none => false
      | some m => decide (m ≠ 0)
  | .del => match cfg.max_delivery_days with
      | none => false
      | some m => decide (m ≠ 0)
  | .ship => (cfg.max_shipping_fee).isSome
  | .weight => (cfg.max_weight).isSome

/-- Total reading of the per-item decision (arbitrary at raising items). -/
def stepTotal (cfg : FilterConfig) (k : FKind) (p : Product) : Bool :=
  match stepOf cfg k p with
  | .ok b => b
  | .error _ => true

/-- The per-item predicate one pass implements. -/
def kindPred (cfg : FilterConfig) (k : FKind) (p : Product) : Bool :=
  if kindActive cfg k then stepTotal cfg k p else true

/-- The pass decides this item without raising. -/
def kindOk (cfg : FilterConfig) (k : FKind) (p : Product) : Bool :=
  !kindActive cfg k || exOkB (stepOf cfg k p)

/-- Every pass decides this item without raising. -/
def itemOk (cfg : FilterConfig) (p : Product) : Bool :=
  allKinds.all (fun k => kindOk cfg k p)

theorem kindOk_of_itemOk {cfg : FilterConfig} {p : Product} (h : itemOk cfg p = true)
    (k : FKind) : kindOk cfg k p = true := by
  have hall := List.all_eq_true.mp h
  cases k
  case cat => exact hall _ (by simp [allKinds])
  case price => exact hall _ (by simp [allKinds])
  case size => exact hall _ (by simp [allKinds])
  case inv => exact hall _ (by simp [allKinds])
  case del => exact hall _ (by simp [allKinds])
  case ship => exact hall _ (by simp [allKinds])
  case weight => exact hall _ (by simp [allKinds])

theorem applyKind_eq_ite (cfg : FilterConfig) (k : FKind) (ps : List Product) :
    applyKind cfg k ps =
      if kindActive cfg k then exceptFilterM (stepOf cfg k) ps else .ok ps := by
  cases k
  case cat => rfl
  case price => rfl
  case size => rfl
  case inv =>
      cases h : cfg.min_inventory with
      | none => simp [applyKind, kindActive, h]
      | some m =>
          by_cases hm : m = 0 <;>
            simp [applyKind, kindActive, stepOf, h, hm, filter_products_by_inventory]
  case del =>
      cases h : cfg.max_delivery_days with
      | none => simp [applyKind, kindActive, h]
      | some m =>
          by_cases hm : m = 0 <;>
            simp [applyKind, kindActive, stepOf, h, hm, filter_products_by_delivery]
  case ship =>
      cases h : cfg.max_shipping_fee with
      | none => simp [applyKind, kindActive, h]
      | some m =>
          simp [applyKind, kindActive, stepOf, h, filter_products_by_shipping_fee]
  case weight =>
      cases h : cfg.max_weight with
      | none => simp [applyKind, kindActive, h]
      | some m =>
          simp [applyKind, kindActive, stepOf, h, filter_products_by_weight]

theorem applyKind_char (cfg : FilterConfig) (k : FKind) (ps : List Product)
    (h : ∀ p ∈ ps, kindOk cfg k p = true) :
    applyKind cfg k ps = .ok (ps.filter (kindPred cfg k)) := by
  rw [applyKind_eq_ite]
  by_cases ha : kindActive cfg k = true
  · have hstep : ∀ p ∈ ps, stepOf cfg k p = .ok (stepTotal cfg k p) := by
      intro p hp
      have hko := h p hp
      rw [kindOk, ha] at hko
      cases hs : stepOf cfg k p with
      | ok b => rw [stepTotal, hs]
      | error e => rw [hs] at hko; simp [exOkB] at hko
    rw [if_pos ha, exceptFilterM_eq_filter ps hstep]
    congr 1
    apply List.filter_congr
    intro p _
    simp [kindPred, ha]
  · rw [if_neg ha]
    have ha2 : kindActive cfg k = false := by
      revert ha; cases kindActive cfg k <;> simp
    have : ps.filter (kindPred cfg k) = ps := by
      apply List.filter_eq_self.mpr
      intro p _
      simp [kindPred, ha2]
    rw [this]

theorem runPipeline_char (cfg : FilterConfig) (ks : List FKind) (ps : List Product)
    (h : ∀ p ∈ ps, itemOk cfg p = true) :
    runPipeline cfg ks ps =
      .ok (ps.filter (fun p => ks.all (fun k => kindPred cfg k p))) := by
  induction ks generalizing ps with
  | nil =>
      simp only [runPipeline, List.all_nil]
      rw [List.filter_eq_self.mpr (fun p _ => rfl)]
  | cons k ks ih =>
      have h1 : ∀ p ∈ ps, kindOk cfg k p = true := fun p hp => kindOk_of_itemOk (h p hp) k
      have h2 : ∀ p ∈ ps.filter (kindPred cfg k), itemOk cfg p = true := by
        intro p hp
        exact h p (List.mem_of_mem_filter hp)
      simp only [runPipeline, applyKind_char cfg k ps h1]
      rw [show (Except.ok (ps.filter (kindPred cfg k)) :
          Except PyErr (List Product)) >>= (fun ps2 => runPipeline cfg ks ps2) =
          runPipeline cfg ks (ps.filter (kindPred cfg k)) from rfl]
      rw [ih _ h2, List.filter_filter]
      congr 1
      apply List.filter_congr
      intro p _
      simp [List.all_cons, Bool.and_comm]

theorem perm_all_eq {l1 l2 : List FKind} (h : l1.Perm l2) (f : FKind → Bool) :
    l1.all f = l2.all f := by
  induction h with
  | nil => rfl
  | cons a _ ih => simp [List.all_cons, ih]
  | swap a b l => simp only [List.all_cons]; cases f a <;> cases f b <;> simp
  | trans _ _ ih1 ih2 => exact ih1.trans ih2

/-- Claim C3 (amended): on inputs where every filter evaluates its per-item
decision without raising (`itemOk`), each of the seven filters is a pure
per-item predicate pass, and running the pipeline in any permutation of the
code's fixed order yields exactly the result of `apply_product_filters`.
(As stated over all inputs the claim fails: a malformed item removed by an
earlier filter can make a reordered pipeline raise instead, see the
counterexample.) -/
theorem pipeline_reorder_invariant (cfg : FilterConfig) (ps : List Product)
    (ks : List FKind) (hperm : ks.Perm codeFilterOrder)
    (hsafe : ∀ p ∈ ps, itemOk cfg p = true) :
    runPipeline cfg ks ps = apply_product_filters cfg ps := by
  rw [apply_product_filters_eq_runPipeline, runPipeline_char cfg ks ps hsafe,
    runPipeline_char cfg codeFilterOrder ps hsafe]
  congr 1
  apply List.filter_congr
  intro p _
  simp [perm_all_eq hperm]

def c3Cfg : FilterConfig :=
  ⟨some ["A"], none, none, none, none, none, some 100, none, none, 20, true,
    none, none, none⟩

def c3Ps : List Product :=
  [[("weight", Value.vnum 50), ("category", Value.vdict [("category", Value.vstr "A")])],
   [("weight", Value.vnum 500)]]

theorem pipeline_reorder_invariant_witness :
    runPipeline c3Cfg (List.reverse codeFilterOrder) c3Ps =
      apply_product_filters c3Cfg c3Ps :=
  pipeline_reorder_invariant c3Cfg c3Ps (List.reverse codeFilterOrder)
    (by decide) (by decide)

def c3CexCfg : FilterConfig :=
  ⟨some ["B"], none, none, some 10, none, none, none, none, none, 20, false,
    none, none, none⟩

def c3CexPs : List Product :=
  [[("category", Value.vdict [("category", Value.vstr "A")]),
    ("dimensions", Value.vdict [("length", Value.vstr "x")])]]

def c3CexOrder : List FKind := [.size, .cat, .price, .inv, .del, .ship, .weight]

/-- Claim C3 is false as stated: moving the size filter ahead of the
category filter changes the outcome on a list whose single item is removed
by the category filter but makes the size filter raise `ValueError`
(`float("x")`): the code's order returns an empty list, the permuted order
raises. -/
theorem pipeline_reorder_cex :
    c3CexOrder.Perm codeFilterOrder ∧
    runPipeline c3CexCfg c3CexOrder c3CexPs ≠
      apply_product_filters c3CexCfg c3CexPs := by
  refine ⟨by decide, ?_⟩
  intro h
  have h1 : runPipeline c3CexCfg c3CexOrder c3CexPs = .error .valueError := rfl
  have h2 : apply_product_filters c3CexCfg c3CexPs = .ok [] := rfl
  rw [h1, h2] at h
  exact Except.noConfusion h

/-! ### Claim C2: which filters can raise -/

theorem pyFloat_ne_attr (v : Value) : pyFloat v ≠ .error .attrError := by
  cases v with
  | vstr s =>
      simp only [pyFloat]
      cases parsePyFloat s <;> simp
  | vnone => simp [pyFloat]
  | vbool b => simp [pyFloat]
  | vnum q => simp [pyFloat]
  | vdict d => simp [pyFloat]
  | vlist l => simp [pyFloat]

theorem pyInt_ne_attr (v : Value) : pyInt v ≠ .error .attrError := by
  cases v with
  | vstr s =>
      simp only [pyInt]
      cases parsePyInt s <;> simp
  | vnone => simp [pyInt]
  | vbool b => simp [pyInt]
  | vnum q => simp [pyInt]
  | vdict d => simp [pyInt]
  | vlist l => simp [pyInt]

theorem pyTry_map_ok {α β : Type} (r : Except PyErr α) (g : α → β) (fb : β)
    (h : r ≠ .error .attrError) : exOkB (pyTry (r.map g) fb) = true := by
  cases r with
  | ok a => rfl
  | error e =>
      cases e with
      | attrError => exact absurd rfl h
      | valueError => rfl
      | typeError => rfl

theorem invStep_ok (m : ℤ) (s : Bool) (p : Product) : exOkB (invStep m s p) = true := by
  cases h : isVNone (invLookup p) with
  | true => simp [invStep, h, exOkB]
  | false =>
      simp only [invStep, h, Bool.false_eq_true, if_false]
      exact pyTry_map_ok _ _ _ (pyInt_ne_attr _)

theorem delStep_ok (m : ℤ) (s : Bool) (p : Product) : exOkB (delStep m s p) = true := by
  cases h : isVNone (delLookup p) with
  | true => simp [delStep, h, exOkB]
  | false =>
      simp only [delStep, h, Bool.false_eq_true, if_false]
      exact pyTry_map_ok _ _ _ (pyInt_ne_attr _)

theorem shipStep_ok (m : ℚ) (s : Bool) (p : Product) : exOkB (shipStep m s p) = true := by
  cases h : isVNone (shipLookup p) with
  | true => simp [shipStep, h, exOkB]
  | false =>
      simp only [shipStep, h, Bool.false_eq_true, if_false]
      exact pyTry_map_ok _ _ _ (pyFloat_ne_attr _)

theorem weightStep_ok (m : ℚ) (s : Bool) (p : Product) : exOkB (weightStep m s p) = true := by
  cases h : isVNone (weightLookup p) with
  | true => simp [weightStep, h, exOkB]
  | false =>
      simp only [weightStep, h, Bool.false_eq_true, if_false]
      exact pyTry_map_ok _ _ _ (pyFloat_ne_attr _)

/-- Claim C2 (amended): the inventory, delivery, shipping-fee, weight and
price filters wrap every numeric coercion in a `try/except` and never
raise, for every product list and configuration; the untried `float` calls
of the size filter and the attribute accesses of the size and category
filters, however, CAN raise (see the counterexample), so the engine as a
whole does not satisfy the never-raises claim. -/
theorem coercion_guarded_filters_never_raise (ps : List Product) (pmin pmax : Option ℚ)
    (rate : ℚ) (strict : Bool) (minInv maxDel : ℤ) (maxFee maxW : ℚ) :
    exOkB (filter_products_by_jpy_price ps pmin pmax rate strict) = true ∧
    exOkB (filter_products_by_inventory ps minInv strict) = true ∧
    exOkB (filter_products_by_delivery ps maxDel strict) = true ∧
    exOkB (filter_products_by_shipping_fee ps maxFee strict) = true ∧
    exOkB (filter_products_by_weight ps maxW strict) = true := by
  refine ⟨?_, ?_, ?_, ?_, ?_⟩
  · unfold filter_products_by_jpy_price
    split
    · exact exceptFilterM_ok ps (fun p _ => rfl)
    · rfl
  · unfold filter_products_by_inventory
    split
    · rfl
    · exact exceptFilterM_ok ps (fun p _ => invStep_ok minInv strict p)
  · unfold filter_products_by_delivery
    split
    · rfl
    · exact exceptFilterM_ok ps (fun p _ => delStep_ok maxDel strict p)
  · unfold filter_products_by_shipping_fee
    split
    · rfl
    · exact exceptFilterM_ok ps (fun p _ => shipStep_ok maxFee strict p)
  · unfold filter_products_by_weight
    split
    · rfl
    · exact exceptFilterM_ok ps (fun p _ => weightStep_ok maxW strict p)

def sizeRaiseP : Product := [("dimensions", Value.vdict [("length", Value.vstr "abc")])]

def catRaiseP : Product := [("category", Value.vstr "A")]

/-- Claim C2 is false as stated: on a product whose dimension field holds
the non-numeric string `"abc"`, the size filter raises `ValueError`
(`float("abc")` is not inside a try block), and on a product whose
category field is a string where a mapping is expected, the category
filter raises `AttributeError` — neither degrades to Unknown. -/
theorem filter_engine_raises :
    filter_products_by_size [sizeRaiseP] (some 10) none none false = .error .valueError ∧
    filter_products_by_categories [catRaiseP] (some ["B"]) none none = .error .attrError :=
  ⟨rfl, rfl⟩

/-! ### Claim C6: the size filter on items lacking size data -/

/-- The product carries no size data at all: none of the three
dimension-record keys is present. -/
def noSizeKeys (p : Product) : Bool :=
  (dictGet p "dimensions").isNone && (dictGet p "size").isNone && (dictGet p "specs").isNone

theorem dims_of_noSize {p : Product} (h : noSizeKeys p = true) :
    dimsOf p = Value.vdict [] := by
  simp only [noSizeKeys, Bool.and_eq_true, Option.isNone_iff_eq_none] at h
  obtain ⟨⟨h1, h2⟩, h3⟩ := h
  simp [dimsOf, pyGetD, h1, h2, h3, pyOr, truthy]

theorem sizeStep_noSize_lenient {p : Product} (maxL maxW maxH : Option ℚ)
    (h : noSizeKeys p = true) : sizeStep maxL maxW maxH false p = .ok true := by
  have hd := dims_of_noSize h
  cases maxL <;> cases maxW <;> cases maxH <;>
    simp [sizeStep, hd, dimLookup, orM, vget, pyGet, dictGet, truthy, isVNone,
      dimViolates, ok_bind, pure_eq_ok, Bind.bind, Except.bind]

theorem sizeStep_noSize_strict {p : Product} (maxL maxW maxH : Option ℚ)
    (h : noSizeKeys p = true)
    (hsome : (maxL.isSome || maxW.isSome || maxH.isSome) = true) :
    sizeStep maxL maxW maxH true p = .ok false := by
  have hd := dims_of_noSize h
  cases maxL <;> cases maxW <;> cases maxH <;>
    simp_all [sizeStep, hd, dimLookup, orM, vget, pyGet, dictGet, truthy, isVNone,
      dimViolates, ok_bind, pure_eq_ok, Bind.bind, Except.bind]

/-- Claim C6 (amended): a product with no size data passes the size filter
with `strict=false` under every configuration of maxima; with
`strict=true` it is excluded whenever the filter is active, i.e. whenever
at least one maximum is configured with a NONZERO value (a maximum of
`0.0` is falsy and makes the guard treat the filter as unconfigured, see
the counterexample). -/
theorem size_filter_missing_size_data (p : Product) (ps : List Product)
    (maxL maxW maxH : Option ℚ) (h : noSizeKeys p = true) :
    (filter_products_by_size (p :: ps) maxL maxW maxH false =
      (filter_products_by_size ps maxL maxW maxH false).map (fun l => p :: l)) ∧
    ((optQTruthy maxL || optQTruthy maxW || optQTruthy maxH) = true →
      filter_products_by_size (p :: ps) maxL maxW maxH true =
        filter_products_by_size ps maxL maxW maxH true) := by
  constructor
  · by_cases ha : (optQTruthy maxL || optQTruthy maxW || optQTruthy maxH) = true
    · simp only [filter_products_by_size, ha, if_true]
      exact exceptFilterM_cons_keep ps (sizeStep_noSize_lenient maxL maxW maxH h)
    · have ha2 : (optQTruthy maxL || optQTruthy maxW || optQTruthy maxH) = false := by
        revert ha; cases optQTruthy maxL || optQTruthy maxW || optQTruthy maxH <;> simp
      simp [filter_products_by_size, ha2, Except.map]
  · intro ha
    have hsome : (maxL.isSome || maxW.isSome || maxH.isSome) = true := by
      cases maxL <;> cases maxW <;> cases maxH <;> simp_all [optQTruthy]
    simp only [filter_products_by_size, ha, if_true]
    exact exceptFilterM_cons_drop ps (sizeStep_noSize_strict maxL maxW maxH h hsome)

theorem size_filter_missing_size_data_witness :
    (filter_products_by_size [([] : Product)] (some 5) none none false =
      (filter_products_by_size ([] : List Product) (some 5) none none false).map
        (fun l => ([] : Product) :: l)) ∧
    filter_products_by_size [([] : Product)] (some 5) none none true =
      filter_products_by_size ([] : List Product) (some 5) none none true :=
  ⟨(size_filter_missing_size_data [] [] (some 5) none none (by decide)).1,
   (size_filter_missing_size_data [] [] (some 5) none none (by decide)).2 (by decide)⟩

/-- Claim C6 is false as stated: with `strict=true` and a size maximum
configured as `0.0` (which `is not None`, hence configured), a product
with no size data is NOT excluded — `0.0` is falsy, the `not any` guard
fires, and the filter passes everything through unchanged. -/
theorem size_filter_strict_zero_max_cex :
    (some (0 : ℚ)).isSome = true ∧
    filter_products_by_size [([] : Product)] (some 0) none none true = .ok [[]] :=
  ⟨rfl, rfl⟩

/-! ### Claim C7: category filter leniency and exclusion -/

/-- The product carries no (truthy) category metadata. -/
def noCatMeta (p : Product) : Bool := !truthy (catMetaOf p)

theorem catStep_noMeta {p : Product} (cats subs subsubs : Option (List String))
    (h : noCatMeta p = true) : catStep cats subs subsubs p = .ok true := by
  cases htr : truthy (catMetaOf p) with
  | true => rw [noCatMeta, htr] at h; simp at h
  | false => simp [catStep, htr]

theorem cat_filter_no_meta_passes (p : Product) (ps : List Product)
    (cats subs subsubs : Option (List String)) (h : noCatMeta p = true) :
    filter_products_by_categories (p :: ps) cats subs subsubs =
      (filter_products_by_categories ps cats subs subsubs).map (fun l => p :: l) := by
  by_cases ha : (optListTruthy cats || optListTruthy subs || optListTruthy subsubs) = true
  · simp only [filter_products_by_categories, ha, if_true]
    exact exceptFilterM_cons_keep ps (catStep_noMeta cats subs subsubs h)
  · have ha2 : (optListTruthy cats || optListTruthy subs || optListTruthy subsubs) = false := by
      revert ha; cases optListTruthy cats || optListTruthy subs || optListTruthy subsubs <;> simp
    simp [filter_products_by_categories, ha2, Except.map]

theorem catDimFail_active {d : Product} {k1 k2 k3 : String} {allow : Option (List String)}
    (hf : catDimPasses d k1 k2 k3 allow = false) : optListTruthy allow = true := by
  by_contra hc
  have hfalse : optListTruthy allow = false := by
    revert hc; cases optListTruthy allow <;> simp
  simp [catDimPasses, hfalse] at hf

theorem cat_filter_mismatch_excluded (p : Product) (ps : List Product)
    (cats subs subsubs : Option (List String)) (d : List (String × Value))
    (hmeta : catMetaOf p = Value.vdict d) (htr : truthy (Value.vdict d) = true)
    (hfail : catDimPasses d "category" "mainCategory" "一级类目" cats = false ∨
      catDimPasses d "subcategory" "subCategory" "二级类目" subs = false ∨
      catDimPasses d "subSubcategory" "sub_subcategory" "三级类目" subsubs = false) :
    filter_products_by_categories (p :: ps) cats subs subsubs =
      filter_products_by_categories ps cats subs subsubs := by
  have hstep : catStep cats subs subsubs p = .ok false := by
    rcases hfail with hf | hf | hf <;> simp [catStep, hmeta, htr, hf]
  have hactive : (optListTruthy cats || optListTruthy subs || optListTruthy subsubs) = true := by
    rcases hfail with hf | hf | hf <;> simp [catDimFail_active hf]
  simp only [filter_products_by_categories, hactive, if_true]
  exact exceptFilterM_cons_drop ps hstep

/-- Claim C7: (a) a product with no category metadata passes the category
filter under every allow-list configuration (there is no strict flag to
this filter, so this holds in both modes); (b) a product whose category
metadata is a (truthy) mapping and which fails some non-empty allow-list
dimension is excluded. -/
theorem category_filter_asymmetry :
    (∀ (p : Product) (ps : List Product) (cats subs subsubs : Option (List String)),
      noCatMeta p = true →
      filter_products_by_categories (p :: ps) cats subs subsubs =
        (filter_products_by_categories ps cats subs subsubs).map (fun l => p :: l)) ∧
    (∀ (p : Product) (ps : List Product) (cats subs subsubs : Option (List String))
      (d : List (String × Value)),
      catMetaOf p = Value.vdict d → truthy (Value.vdict d) = true →
      (catDimPasses d "category" "mainCategory" "一级类目" cats = false ∨
       catDimPasses d "subcategory" "subCategory" "二级类目" subs = false ∨
       catDimPasses d "subSubcategory" "sub_subcategory" "三级类目" subsubs = false) →
      filter_products_by_categories (p :: ps) cats subs subsubs =
        filter_products_by_categories ps cats subs subsubs) :=
  ⟨cat_filter_no_meta_passes, cat_filter_mismatch_excluded⟩

def pNoMeta : Product := [("title", Value.vstr "t")]

def pMismatch : Product := [("category", Value.vdict [("category", Value.vstr "B")])]

theorem category_filter_asymmetry_witness :
    (filter_products_by_categories [pNoMeta] (some ["A"]) none none =
      (filter_products_by_categories [] (some ["A"]) none none).map (fun l => pNoMeta :: l)) ∧
    filter_products_by_categories [pMismatch] (some ["A"]) none none =
      filter_products_by_categories [] (some ["A"]) none none :=
  ⟨category_filter_asymmetry.1 pNoMeta [] (some ["A"]) none none (by decide),
   category_filter_asymmetry.2 pMismatch [] (some ["A"]) none none
     [("category", Value.vstr "B")] rfl (by decide) (Or.inl (by decide))⟩

/-! ### Claims C4/C5: weight normalization and price extraction -/

instance exceptDecEq {ε α : Type} [DecidableEq ε] [DecidableEq α] :
    DecidableEq (Except ε α)
  | .ok a, .ok b =>
      if h : a = b then isTrue (by rw [h])
      else isFalse (fun hh => h (Except.ok.inj hh))
  | .ok _, .error _ => isFalse (fun hh => Except.noConfusion hh)
  | .error _, .ok _ => isFalse (fun hh => Except.noConfusion hh)
  | .error e, .error f =>
      if h : e = f then isTrue (by rw [h])
      else isFalse (fun hh => h (Except.error.inj hh))

/-- Python `s.lower()` (ASCII suffices for the unit markers involved). -/
def strToLower (s : String) : String :=
  String.mk (s.toList.map Char.toLower)

def listStartsWith : List Char → List Char → Bool
  | _, [] => true
  | [], _ :: _ => false
  | c :: cs, n :: ns => c == n && listStartsWith cs ns

def listContainsSeq (needle : List Char) : List Char → Bool
  | [] => needle.isEmpty
  | c :: rest => listStartsWith (c :: rest) needle || listContainsSeq needle rest

/-- Python `needle in hay` on strings. -/
def strContainsStr (hay needle : String) : Bool :=
  listContainsSeq needle.toList hay.toList

/-- The weight normalization of the `main.py` variant of the weight filter
(`main.py` lines 304-324): clean the string, coerce, then convert to grams
when a `kg` marker is present or the bare value exceeds 10 with no `g` in
the string, else multiply by 453.592 on an `lb`/`pound` marker.  Returns
`none` for an empty cleaned string (`weight_val = None`). -/
def main_weight_val : Value → Except PyErr (Option ℚ)
  | .vstr s =>
      let clean := keepPriceChars s
      if clean = "" then .ok none
      else
        match parsePyFloat (commaToDot clean) with
        | none => .error .valueError
        | some q =>
            let low := strToLower s
            if strContainsStr low "kg" || (decide (10 < q) && !strContainsStr low "g") then
              .ok (some (q * 1000))
            else if strContainsStr low "lb" || strContainsStr low "pound" then
              .ok (some (q * (453592 / 1000)))
            else .ok (some q)
  | v => (pyFloat v).map some

/-- Per-item body of the `main.py` weight filter (`main.py` lines 294-331):
kept when the normalized value is `None` or within the maximum; coercion
failures fall back to the strict-mode default. -/
def main_weightStep (maxW : ℚ) (strict : Bool) (p : Product) : Except PyErr Bool :=
  let w := weightLookup p
  if isVNone w then .ok (!strict)
  else
    pyTry ((main_weight_val w).map (fun ov =>
      match ov with
      | none => true
      | some q => decide (q ≤ maxW))) (!strict)

/-- `filter_products_by_weight` as defined in `main.py` lines 284-333
(guard: `if max_weight is None: return products`). -/
def main_filter_products_by_weight (ps : List Product) (maxW : Option ℚ)
    (strict : Bool) : Except PyErr (List Product) :=
  match maxW with
  | none => .ok ps
  | some m => exceptFilterM (main_weightStep m strict) ps

theorem mainWeightVal_kg : main_weight_val (Value.vstr "1.5kg") = .ok (some 1500) := by
  have hclean : commaToDot (keepPriceChars "1.5kg") = "1.5" := by decide
  have ht : "1.5".toList = ['1', '.', '5'] := rfl
  have e1 : parseDigits ['1'] = 1 := by decide
  have e5 : parseDigits ['5'] = 5 := by decide
  have hq : parsePyFloat "1.5" = some (3 / 2 : ℚ) := by
    simp +decide only [parsePyFloat, ht, parsePyFloatPos, List.takeWhile, List.dropWhile,
      List.all_cons, List.all_nil, List.filter, List.drop, List.length, decide_True,
      decide_False]
    rw [e1, e5]
    norm_num
  simp +decide only [main_weight_val, hclean, hq]
  norm_num

theorem mainWeightVal_lbs :
    main_weight_val (Value.vstr "2 lbs") = .ok (some (907184 / 1000)) := by
  have hclean : commaToDot (keepPriceChars "2 lbs") = "2" := by decide
  have ht : "2".toList = ['2'] := rfl
  have e2 : parseDigits ['2'] = 2 := by decide
  have e0 : parseDigits [] = 0 := rfl
  have hq : parsePyFloat "2" = some (2 : ℚ) := by
    simp +decide only [parsePyFloat, ht, parsePyFloatPos, List.takeWhile, List.dropWhile,
      List.all_cons, List.all_nil, List.filter, List.drop, List.length, decide_True,
      decide_False]
    rw [e2, e0]
    norm_num
  simp +decide only [main_weight_val, hclean, hq]
  norm_num

theorem mainWeightVal_g : main_weight_val (Value.vstr "500g") = .ok (some 500) := by
  have hclean : commaToDot (keepPriceChars "500g") = "500" := by decide
  have ht : "500".toList = ['5', '0', '0'] := rfl
  have e5 : parseDigits ['5', '0', '0'] = 500 := by decide
  have e0 : parseDigits [] = 0 := rfl
  have hq : parsePyFloat "500" = some (500 : ℚ) := by
    simp +decide only [parsePyFloat, ht, parsePyFloatPos, List.takeWhile, List.dropWhile,
      List.all_cons, List.all_nil, List.filter, List.drop, List.length, decide_True,
      decide_False]
    rw [e5, e0]
    norm_num
  simp +decide only [main_weight_val, hclean, hq]

theorem mainWeightVal_bare : main_weight_val (Value.vstr "15") = .ok (some 15000) := by
  have hclean : commaToDot (keepPriceChars "15") = "15" := by decide
  have ht : "15".toList = ['1', '5'] := rfl
  have e15 : parseDigits ['1', '5'] = 15 := by decide
  have e0 : parseDigits [] = 0 := rfl
  have hq : parsePyFloat "15" = some (15 : ℚ) := by
    simp +decide only [parsePyFloat, ht, parsePyFloatPos, List.takeWhile, List.dropWhile,
      List.all_cons, List.all_nil, List.filter, List.drop, List.length, decide_True,
      decide_False]
    rw [e15, e0]
    norm_num
  simp +decide only [main_weight_val, hclean, hq]
  norm_num

theorem mainWeightFilter_kg_1400 :
    main_filter_products_by_weight [[("weight", Value.vstr "1.5kg")]] (some 1400) false =
      .ok [] := by
  have hstep : main_weightStep 1400 false [("weight", Value.vstr "1.5kg")] = .ok false := by
    have hshape : main_weightStep 1400 false [("weight", Value.vstr "1.5kg")] =
        pyTry ((main_weight_val (Value.vstr "1.5kg")).map (fun ov =>
          match ov with
          | none => true
          | some q => decide (q ≤ 1400))) true := rfl
    rw [hshape, mainWeightVal_kg]
    simp +decide [pyTry, Except.map]
  show exceptFilterM (main_weightStep 1400 false) [[("weight", Value.vstr "1.5kg")]] =
    .ok []
  rw [exceptFilterM_cons_drop _ hstep]
  rfl

/-- Claim C4 (amended): the normalization described by the claim is
implemented only by the `main.py` variant of the weight filter, where
`"1.5kg"` normalizes to 1500 g, `"2 lbs"` to 907.184 g, `"500g"` to 500 g,
and bare `"15"` to 15000 g (heuristically kilograms), and where a 1.5 kg
item is excluded by a 1400 g maximum.  The package filter cited by the
claim (`rakumart/filters.py`) performs no unit normalization at all (see
the counterexample). -/
theorem main_weight_normalization :
    main_weight_val (Value.vstr "1.5kg") = .ok (some 1500) ∧
    main_weight_val (Value.vstr "2 lbs") = .ok (some (907184 / 1000)) ∧
    main_weight_val (Value.vstr "500g") = .ok (some 500) ∧
    main_weight_val (Value.vstr "15") = .ok (some 15000) ∧
    main_filter_products_by_weight [[("weight", Value.vstr "1.5kg")]] (some 1400) false =
      .ok [] :=
  ⟨mainWeightVal_kg, mainWeightVal_lbs, mainWeightVal_g, mainWeightVal_bare,
    mainWeightFilter_kg_1400⟩

/-- Claim C4 is false of the filter it cites: the package weight filter
feeds `"1.5kg"` straight to `float`, the coercion fails, the failure is
caught and resolved as Unknown, and in lenient mode the item PASSES a
1400 g maximum instead of being compared as 1500 g and excluded. -/
theorem package_weight_no_normalization_cex :
    filter_products_by_weight [[("weight", Value.vstr "1.5kg")]] 1400 false =
      .ok [[("weight", Value.vstr "1.5kg")]] := rfl

def c5Product : Product := [("goodsPrice", Value.vstr "¥1,234.50")]

/-- Claim C5 is false: extraction does not return 24690.0 for
`"¥1,234.50"` — the comma-to-dot replacement makes coercion fail and the
price is unavailable. -/
theorem price_comma_cex : get_product_price_in_jpy c5Product 20 ≠ some 24690 := by
  intro h
  have h1 : get_product_price_in_jpy c5Product 20 = none := rfl
  rw [h1] at h
  exact Option.noConfusion h

/-- Claim C5 (amended): the code treats a comma as a DECIMAL separator,
not a thousands separator: `"¥1,234.50"` cleans to `"1,234.50"`, the comma
becomes a dot giving `"1.234.50"`, `float` raises, the error is caught and
extraction returns `None` (Unknown).  Without a thousands separator the
documented arithmetic holds: `"¥1234.50"` at rate 20.0 gives 24690.0. -/
theorem price_extraction_comma_decimal :
    get_product_price_in_jpy c5Product 20 = none ∧
    get_product_price_in_jpy [("goodsPrice", Value.vstr "¥1234.50")] 20 = some 24690 := by
  refine ⟨rfl, ?_⟩
  have hclean : commaToDot (keepPriceChars "¥1234.50") = "1234.50" := by decide
  have ht : "1234.50".toList = ['1', '2', '3', '4', '.', '5', '0'] := rfl
  have ea : parseDigits ['1', '2', '3', '4'] = 1234 := by decide
  have eb : parseDigits ['5', '0'] = 50 := by decide
  have hq : parsePyFloat "1234.50" = some (2469 / 2 : ℚ) := by
    simp +decide only [parsePyFloat, ht, parsePyFloatPos, List.takeWhile, List.dropWhile,
      List.all_cons, List.all_nil, List.filter, List.drop, List.length, decide_True,
      decide_False]
    rw [ea, eb]
    norm_num
  simp +decide only [get_product_price_in_jpy, firstPrice, priceFromValue, pyGet,
    dictGet, Option.getD, convert_rmb_to_jpy, Option.map, if_true, if_false]
  rw [hclean, hq]
  norm_num

/-! ### `rakumart/enrich.py`: claims C8 and C10 -/

/-- Python `str(v)`.  Only `vstr` values reach this in the embedded
callers' claims; for the other shapes only non-emptiness is relevant
(`str()` of a number, dict, list, `None` or bool is never empty), so their
exact textual representation is abbreviated. -/
def pyStr : Value → String
  | .vnone => "None"
  | .vbool b => if b then "True" else "False"
  | .vstr s => s
  | .vnum q => toString q.num
  | .vdict _ => "dict"
  | .vlist _ => "list"

/-- `str(item.get("goodsId", ""))` and the `if not goods_id: continue`
test (`enrich.py` lines 26-28). -/
def extractGid (p : Product) : Option String :=
  let gid := pyStr (pyGetD p "goodsId" (.vstr ""))
  if gid = "" then none else some gid

/-- Python dict assignment `d[k] = v`. -/
def setKey : Product → String → Value → Product
  | [], k, v => [(k, v)]
  | (k0, v0) :: rest, k, v =>
      if k0 = k then (k, v) :: rest else (k0, v0) :: setKey rest k v

/-- One iteration of the enrichment loop (`enrich.py` lines 25-40):
returns the detail-fetch calls issued (by goods id) and the updated item.
The detail callback models `get_product_detail`: `None` or a dict. -/
def enrichOne (fn : String → Option (List (String × Value))) (item : Product) :
    List String × Product :=
  match extractGid item with
  | none => ([], item)
  | some gid =>
      ([gid],
        match fn gid with
        | none => item
        | some [] => item
        | some d =>
            setKey (setKey (setKey item "detailImages" (pyGetD d "images" (.vlist [])))
              "detailDescription" (pyGetD d "description" (.vstr "")))
              "detailNormalized" (.vdict d))

/-- `num_to_enrich` (`enrich.py` lines 19-22). -/
def numToEnrich (limit : Option ℤ) (n : ℕ) : ℕ :=
  match limit with
  | none => n
  | some l => if l = 0 then n else (max 0 (min l (n : ℤ))).toNat

/-- `for idx in range(num_to_enrich)`: the first `n` positions are
processed, the rest are untouched. -/
def enrichGo (fn : String → Option (List (String × Value))) :
    ℕ → List Product → List String × List Product
  | _, [] => ([], [])
  | 0, rest => ([], rest)
  | n + 1, p :: rest =>
      let r := enrichOne fn p
      let rr := enrichGo fn n rest
      (r.1 ++ rr.1, r.2 :: rr.2)

/-- `enrich_products_with_detail` (`enrich.py` lines 4-40), returning the
issued detail-fetch calls alongside the updated list (the Python function
mutates in place and returns `None`). -/
def enrich_products_with_detail (ps : List Product)
    (fn : String → Option (List (String × Value))) (limit : Option ℤ) :
    List String × List Product :=
  if ps.isEmpty then ([], ps)
  else enrichGo fn (numToEnrich limit ps.length) ps

/-- Claim C8 (amended): the limit counts POSITIONS, not successful
fetches: detail calls are issued exactly for the identifier-bearing items
among the first `min(limit, len)` positions; an identifier-less item in
those positions consumes budget and no later item is fetched in its
place. -/
theorem enrich_limit_counts_positions (ps : List Product)
    (fn : String → Option (List (String × Value))) (limit : Option ℤ) :
    (enrich_products_with_detail ps fn limit).1 =
      (ps.take (numToEnrich limit ps.length)).filterMap extractGid := by
  have hgo : ∀ (n : ℕ) (l : List Product),
      (enrichGo fn n l).1 = (l.take n).filterMap extractGid := by
    intro n
    induction n with
    | zero => intro l; cases l <;> simp [enrichGo]
    | succ n ih =>
        intro l
        cases l with
        | nil => simp [enrichGo]
        | cons p rest =>
            simp only [enrichGo, List.take_succ_cons, List.filterMap_cons]
            cases hg : extractGid p with
            | none => simp [enrichOne, hg, ih rest]
            | some g =>
                cases hf : fn g with
                | none => simp [enrichOne, hg, hf, ih rest]
                | some d => cases d <;> simp [enrichOne, hg, hf, ih rest]
  cases ps with
  | nil => simp [enrich_products_with_detail]
  | cons p rest =>
      simp only [enrich_products_with_detail, List.isEmpty_cons, Bool.false_eq_true,
        if_false]
      exact hgo _ _

def pid (s : String) : Product := [("goodsId", Value.vstr s)]

def detailStubFn : String → Option (List (String × Value)) :=
  fun _ => some [("images", Value.vlist [])]

/-- Claim C8 is false as stated: with `limit=2` on a 5-item list whose
first item has no identifier, only ONE call is issued (for `"A"` at
position 1); the skipped item consumed the budget and `"B"` is never
fetched in its place, contrary to the claimed calls `["A", "B"]`. -/
theorem enrich_skip_consumes_budget_cex :
    (enrich_products_with_detail [[], pid "A", pid "B", pid "C", pid "D"]
      detailStubFn (some 2)).1 = ["A"] ∧
    (enrich_products_with_detail [[], pid "A", pid "B", pid "C", pid "D"]
      detailStubFn (some 2)).1 ≠ ["A", "B"] := by
  refine ⟨rfl, ?_⟩
  intro h
  have h1 : (enrich_products_with_detail [[], pid "A", pid "B", pid "C", pid "D"]
      detailStubFn (some 2)).1 = ["A"] := rfl
  rw [h1] at h
  exact absurd h (by decide)

/-- The keys enrichment writes. -/
def detailKeys : List String := ["detailImages", "detailDescription", "detailNormalized"]

/-- Every key outside the three detail keys is unchanged. -/
def frameOK (p q : Product) : Prop :=
  ∀ k, k ∉ detailKeys → dictGet q k = dictGet p k

/-- Will this item actually receive merged detail fields? -/
def willMerge (fn : String → Option (List (String × Value))) (p : Product) : Bool :=
  match extractGid p with
  | none => false
  | some g =>
      match fn g with
      | none => false
      | some [] => false
      | some (_ :: _) => true

theorem dictGet_setKey_ne (d : Product) (k k2 : String) (v : Value) (h : k2 ≠ k) :
    dictGet (setKey d k v) k2 = dictGet d k2 := by
  induction d with
  | nil => simp [setKey, dictGet, h.symm]
  | cons kv rest ih =>
      obtain ⟨k0, v0⟩ := kv
      by_cases h0 : k0 = k
      · subst h0
        simp [setKey, dictGet, h.symm]
      · simp [setKey, dictGet, h0, ih]

theorem enrichOne_frame (fn : String → Option (List (String × Value))) (p : Product) :
    frameOK p (enrichOne fn p).2 ∧ (willMerge fn p = false → (enrichOne fn p).2 = p) := by
  cases hg : extractGid p with
  | none => exact ⟨by simp [enrichOne, hg]; exact fun k hk => rfl, fun _ => by simp [enrichOne, hg]⟩
  | some g =>
      cases hf : fn g with
      | none =>
          exact ⟨by simp [enrichOne, hg, hf]; exact fun k hk => rfl,
            fun _ => by simp [enrichOne, hg, hf]⟩
      | some d =>
          cases d with
          | nil =>
              exact ⟨by simp [enrichOne, hg, hf]; exact fun k hk => rfl,
                fun _ => by simp [enrichOne, hg, hf]⟩
          | cons kv rest =>
              constructor
              · intro k hk
                simp only [detailKeys, List.mem_cons, List.not_mem_nil, or_false,
                  not_or] at hk
                obtain ⟨h1, h2, h3⟩ := hk
                simp only [enrichOne, hg, hf]
                rw [dictGet_setKey_ne _ _ _ _ h3, dictGet_setKey_ne _ _ _ _ h2,
                  dictGet_setKey_ne _ _ _ _ h1]
              · intro hw
                simp [willMerge, hg, hf] at hw

/-- Claim C10 (amended): enrichment writes only the three fixed detail
keys; every pre-existing field under any OTHER key keeps its value, and an
item that is not merged (no identifier, a failed fetch, or a falsy detail)
is returned unchanged.  A pre-existing field under one of the three detail
keys, however, IS overwritten when a fetch succeeds (see the
counterexample). -/
theorem enrich_only_adds_detail_keys (ps : List Product)
    (fn : String → Option (List (String × Value))) (limit : Option ℤ) :
    List.Forall₂ (fun p q => frameOK p q ∧ (willMerge fn p = false → q = p))
      ps (enrich_products_with_detail ps fn limit).2 := by
  have hR : ∀ p : Product, frameOK p p ∧ (willMerge fn p = false → p = p) :=
    fun p => ⟨fun _ _ => rfl, fun _ => rfl⟩
  have hgo : ∀ (n : ℕ) (l : List Product),
      List.Forall₂ (fun p q => frameOK p q ∧ (willMerge fn p = false → q = p))
        l (enrichGo fn n l).2 := by
    intro n
    induction n with
    | zero =>
        intro l
        cases l with
        | nil => simp [enrichGo]
        | cons p rest =>
            simp only [enrichGo]
            exact List.forall₂_same.mpr (fun x _ => hR x)
    | succ n ih =>
        intro l
        cases l with
        | nil => simp [enrichGo]
        | cons p rest =>
            simp only [enrichGo]
            exact List.Forall₂.cons (enrichOne_frame fn p) (ih rest)
  cases ps with
  | nil => simp [enrich_products_with_detail]
  | cons p rest =>
      simp only [enrich_products_with_detail, List.isEmpty_cons, Bool.false_eq_true,
        if_false]
      exact hgo _ _

theorem enrich_only_adds_detail_keys_witness :
    List.Forall₂ (fun p q => frameOK p q ∧ (willMerge detailStubFn p = false → q = p))
      [pid "A"] (enrich_products_with_detail [pid "A"] detailStubFn none).2 :=
  enrich_only_adds_detail_keys [pid "A"] detailStubFn none

def c10p : Product := [("goodsId", Value.vstr "A"), ("detailImages", Value.vstr "old")]

/-- Claim C10 is false as stated: a product that already carries a
`detailImages` field does NOT keep its value — a successful fetch
overwrites it. -/
theorem enrich_overwrites_detail_key_cex :
    dictGet ((enrich_products_with_detail [c10p] detailStubFn none).2.headD [])
        "detailImages" ≠
      dictGet c10p "detailImages" := by
  intro h
  have h1 : dictGet ((enrich_products_with_detail [c10p] detailStubFn none).2.headD [])
      "detailImages" = some (Value.vlist []) := rfl
  have h2 : dictGet c10p "detailImages" = some (Value.vstr "old") := rfl
  rw [h1, h2] at h
  injection h with h3
  exact Value.noConfusion h3

/-! ### `http.py` / `api_search.py`: claim C9 -/

/-- What the HTTP round-trip can produce: a timeout, another network
error, or a response body that may or may not decode as JSON. -/
inductive TransportOutcome : Type where
  | timeout : TransportOutcome
  | netError : TransportOutcome
  | body : Option Value → TransportOutcome

/-- `safe_post_json` (`http.py` lines 5-25): every transport failure —
timeout, other network error, undecodable body — is caught and reported
as `None`; a decoded body is returned as-is. -/
def safe_post_json : TransportOutcome → Option Value
  | .timeout => none
  | .netError => none
  | .body d => d

/-- Python `v[k]` under `except (KeyError, TypeError)`: a missing key or a
non-dict receiver both land in the handler, modelled as `none`. -/
def trySubscript (v : Value) (k : String) : Option Value :=
  match v with
  | .vdict d => dictGet d k
  | _ => none

/-- `search_products` (`api_search.py` lines 89-123), from the transport
outcome on (request building is I/O and not modelled).  The boolean
records whether the client-side filter callback `apply_filters_fn` was
invoked.  `data.get("success", False)` on a decoded non-dict body raises
`AttributeError` (that body shape is outside the claim). -/
def search_products_core (o : TransportOutcome) (applyFiltersFn : Option (Value → Value)) :
    Except PyErr (Value × Bool) :=
  match safe_post_json o with
  | none => .ok (.vlist [], false)
  | some data =>
      match data with
      | .vdict d =>
          if !truthy (pyGetD d "success" (.vbool false)) then .ok (.vlist [], false)
          else
            match (trySubscript (.vdict d) "data").bind
                (fun v => (trySubscript v "result").bind
                  (fun v2 => trySubscript v2 "result")) with
            | none => .ok (.vlist [], false)
            | some products =>
                match applyFiltersFn with
                | none => .ok (products, false)
                | some fn => .ok (fn products, true)
      | _ => .error .attrError

/-- `get_product_detail` (`api_search.py` lines 126-157), from the
transport outcome on. -/
def get_product_detail_core (o : TransportOutcome) : Except PyErr (Option Value) :=
  match safe_post_json o with
  | none => .ok none
  | some data =>
      match data with
      | .vdict d =>
          if !truthy (pyGetD d "success" (.vbool false)) then .ok none
          else .ok (trySubscript (.vdict d) "data")
      | _ => .error .attrError

/-- Claim C9: whenever Transport fails (timeout, network error or an
undecodable body — exactly the cases where `safe_post_json` yields
`None`), the search endpoint returns an empty list without raising and
without invoking the filter callback, the detail endpoint returns `None`
without raising, and enrichment of the resulting empty list issues no
detail-fetch calls. -/
theorem endpoint_transport_failure_no_result (o : TransportOutcome)
    (fn : Option (Value → Value)) (dfn : String → Option (List (String × Value)))
    (lim : Option ℤ) (h : safe_post_json o = none) :
    search_products_core o fn = .ok (.vlist [], false) ∧
    get_product_detail_core o = .ok none ∧
    enrich_products_with_detail [] dfn lim = ([], []) := by
  refine ⟨?_, ?_, rfl⟩
  · unfold search_products_core
    rw [h]
  · unfold get_product_detail_core
    rw [h]

theorem endpoint_transport_failure_no_result_witness :
    search_products_core .timeout none = .ok (.vlist [], false) ∧
    get_product_detail_core .timeout = .ok none ∧
    enrich_products_with_detail [] (fun _ => none) none = ([], []) :=
  endpoint_transport_failure_no_result .timeout none (fun _ => none) none rfl

end Rakumart
